import Mathlib

/-!
Verification development for the StauroX transaction-verification oracle.

The definitions below are a shallow embedding of the Rust sources:
`src/error.rs`, `src/rpc/consensus.rs`, `src/rpc/client.rs`,
`src/monitor/detector.rs`, `src/parsers/wormhole.rs`, `src/parsers/mod.rs`,
`src/parsers/bridge_types.rs`, `src/types/*.rs`,
`src/verification/risk.rs` and `src/verification/engine.rs`.

Modelling conventions:
- machine integers (`u8`, `u16`, `u64`, `usize`) are `Nat`; `i64` is `Int`;
- `f64` arithmetic on the small decimal weight constants is modelled exactly
  over `ℚ` (the computations at issue are sums, one product and a clamp);
- fallible Rust code returning `Result` is `Except StauroXError`;
- a Rust runtime panic (out-of-bounds slice indexing) is the explicit
  `RunResult.panicked` outcome;
- the iteration order of a Rust `HashMap` (which is seeded randomly per map)
  is passed in explicitly as a list of the distinct keys, so that statements
  can quantify over every order the map may produce.
-/

namespace StauroX

/-- `NetworkHealth` from `src/types/network.rs`. -/
inductive NetworkHealth
  | Healthy
  | Forked
  | Halted
deriving DecidableEq, Repr

/-- `FinalityLevel` from `src/types/verification.rs`; declaration order
`Fast, Safe, UltraSafe` gives the Rust-derived ordering `Fast < Safe < UltraSafe`. -/
inductive FinalityLevel
  | Fast
  | Safe
  | UltraSafe
deriving DecidableEq, Repr

/-- Rank of a finality level in the Rust `derive(PartialOrd, Ord)` ordering
(declaration order). -/
def finalityRank : FinalityLevel → Nat
  | FinalityLevel.Fast => 0
  | FinalityLevel.Safe => 1
  | FinalityLevel.UltraSafe => 2

/-- `f` is the lowest finality tier: its rank is at most every other rank. -/
def isLowestTier (f : FinalityLevel) : Bool :=
  [FinalityLevel.Fast, FinalityLevel.Safe, FinalityLevel.UltraSafe].all
    (fun l => finalityRank f ≤ finalityRank l)

/-- `StauroXError` from `src/error.rs`. Payloads of foreign error types
(`ClientError`, `ParseSignatureError`, `serde_json::Error`, `std::io::Error`)
are elided to their message strings; the constructor set is exactly the
variant set of the Rust enum. -/
inductive StauroXError
  | Rpc (msg : String)
  | ConsensusFailure (message : String) (responses : Nat) (required : Nat)
  | HealthCheck (msg : String)
  | Config (msg : String)
  | SignatureParse (msg : String)
  | Verification (msg : String)
  | Serialization (msg : String)
  | Io (msg : String)
deriving DecidableEq, Repr

/-- The error kind of a `StauroXError`, i.e. the name of the Rust enum
variant that carries it. -/
def StauroXError.kind : StauroXError → String
  | StauroXError.Rpc _ => "Rpc"
  | StauroXError.ConsensusFailure _ _ _ => "ConsensusFailure"
  | StauroXError.HealthCheck _ => "HealthCheck"
  | StauroXError.Config _ => "Config"
  | StauroXError.SignatureParse _ => "SignatureParse"
  | StauroXError.Verification _ => "Verification"
  | StauroXError.Serialization _ => "Serialization"
  | StauroXError.Io _ => "Io"

/-- `StauroXError::consensus_failure` from `src/error.rs`. -/
def StauroXError.consensus_failure (responses required : Nat) : StauroXError :=
  StauroXError.ConsensusFailure
    ("Insufficient consensus: " ++ toString responses ++ "/" ++ toString required ++ " responses")
    responses required

/-- Whether an `Except` result is the `ConsensusFailure` error variant. -/
def isConsensusFailure {α : Type} : Except StauroXError α → Bool
  | Except.error (StauroXError.ConsensusFailure _ _ _) => true
  | _ => false

/-- Whether an `Except` result is an `Ok` value (Rust `Result::is_ok`). -/
def exceptIsOk {α : Type} : Except StauroXError α → Bool
  | Except.ok _ => true
  | Except.error _ => false

/-! ## ConsensusEngine (`src/rpc/consensus.rs`) -/

/-- `ConsensusEngine` struct fields. -/
structure ConsensusEngine where
  threshold : Nat
  total_sources : Nat
deriving DecidableEq, Repr

/-- `ConsensusEngine::has_minimum_responses`. -/
def hasMinimumResponses {T : Type} (e : ConsensusEngine) (responses : List T) :
    Except StauroXError Unit :=
  if responses.length < e.threshold then
    Except.error (StauroXError.consensus_failure responses.length e.threshold)
  else
    Except.ok ()

/-- One step of Rust `Iterator::max_by_key` on `(value, count)` pairs: the
running maximum is replaced whenever the new element's key is greater or
equal, so among ties the last element wins. -/
def maxByCountStep {T : Type} (acc : Option (T × Nat)) (p : T × Nat) : Option (T × Nat) :=
  match acc with
  | none => some p
  | some q => if q.2 ≤ p.2 then some p else some q

/-- Rust `counts.into_iter().max_by_key(|(_, count)| *count)` over the pair
list in the map's iteration order. -/
def maxByCountLast {T : Type} (l : List (T × Nat)) : Option (T × Nat) :=
  l.foldl maxByCountStep none

/-- `order` is a possible iteration order of the `HashMap` built by
`find_consensus` from `responses`: it enumerates each distinct response value
exactly once, in some arbitrary order. -/
def IsIterOrder {T : Type} [DecidableEq T] (responses order : List T) : Prop :=
  List.Perm order responses.dedup

instance {T : Type} [DecidableEq T] (responses order : List T) :
    Decidable (IsIterOrder responses order) :=
  inferInstanceAs (Decidable (List.Perm order responses.dedup))

instance {ε α : Type} [DecidableEq ε] [DecidableEq α] : DecidableEq (Except ε α) := by
  intro x y
  cases x <;> cases y
  case error.error a b =>
    exact decidable_of_iff (a = b) (by simp)
  case ok.ok a b =>
    exact decidable_of_iff (a = b) (by simp)
  all_goals
    exact Decidable.isFalse (by simp)

/-- `ConsensusEngine::find_consensus`, with the `HashMap` iteration order made
explicit. The counts map sends each distinct response value to its occurrence
count; `max_by_key` scans it in `order`. -/
def findConsensus {T : Type} [DecidableEq T] (e : ConsensusEngine)
    (responses : List T) (order : List T) : Except StauroXError T :=
  match hasMinimumResponses e responses with
  | Except.error err => Except.error err
  | Except.ok _ =>
    match maxByCountLast (order.map (fun v => (v, responses.count v))) with
    | none => Except.error (StauroXError.consensus_failure 0 e.threshold)
    | some (value, c) =>
      if c < e.threshold then Except.error (StauroXError.consensus_failure c e.threshold)
      else Except.ok value

/-- The response list has a value whose occurrence count strictly dominates
every other distinct value's count. -/
def UniqueMaxResponse {T : Type} [DecidableEq T] (responses : List T) : Prop :=
  ∃ m ∈ responses.dedup,
    ∀ v ∈ responses.dedup, v ≠ m → responses.count v < responses.count m

instance {T : Type} [DecidableEq T] (responses : List T) :
    Decidable (UniqueMaxResponse responses) :=
  inferInstanceAs (Decidable (∃ m ∈ responses.dedup,
    ∀ v ∈ responses.dedup, v ≠ m → responses.count v < responses.count m))

/-- `ConsensusEngine::consensus_ratio`: `max_count / total_responses`,
`0` for an empty list (exact rational model of the `f64` division). -/
def consensus_ratio {T : Type} [DecidableEq T] (responses : List T) : ℚ :=
  if responses.isEmpty then 0
  else
    let counts := responses.dedup.map (fun v => (v, responses.count v))
    let maxCount : Nat := (counts.map Prod.snd).foldr Nat.max 0
    (maxCount : ℚ) / (responses.length : ℚ)

/-! ### Lemmas about the `max_by_key` fold -/

theorem foldl_maxByCountStep_some {T : Type} :
    ∀ (l : List (T × Nat)) (acc : Option (T × Nat)) (r : T × Nat),
      l.foldl maxByCountStep acc = some r → acc = some r ∨ r ∈ l := by
  intro l
  induction l with
  | nil =>
    intro acc r h
    exact Or.inl h
  | cons p l ih =>
    intro acc r h
    rcases ih (maxByCountStep acc p) r h with h1 | h2
    · cases acc with
      | none =>
        simp only [maxByCountStep, Option.some.injEq] at h1
        exact Or.inr (h1 ▸ List.mem_cons_self p l)
      | some q =>
        simp only [maxByCountStep] at h1
        by_cases hq : q.2 ≤ p.2
        · rw [if_pos hq, Option.some.injEq] at h1
          exact Or.inr (h1 ▸ List.mem_cons_self p l)
        · rw [if_neg hq] at h1
          exact Or.inl h1
    · exact Or.inr (List.mem_cons_of_mem p h2)

/-- Whatever `max_by_key` returns is one of the scanned pairs. -/
theorem maxByCountLast_mem {T : Type} (l : List (T × Nat)) (r : T × Nat)
    (h : maxByCountLast l = some r) : r ∈ l := by
  rcases foldl_maxByCountStep_some l none r h with h1 | h2
  · exact absurd h1 (by simp)
  · exact h2

theorem foldl_maxByCountStep_keep {T : Type} (m : T) (cm : Nat) :
    ∀ l : List (T × Nat),
      (∀ p ∈ l, p.1 ≠ m → p.2 < cm) → (∀ p ∈ l, p.1 = m → p = (m, cm)) →
      l.foldl maxByCountStep (some (m, cm)) = some (m, cm) := by
  intro l
  induction l with
  | nil =>
    intro _ _
    rfl
  | cons p l ih =>
    intro h1 h2
    by_cases hp : p.1 = m
    · have hpe : p = (m, cm) := h2 p (List.mem_cons_self p l) hp
      rw [List.foldl_cons, hpe]
      have hstep : maxByCountStep (some (m, cm)) (m, cm) = some (m, cm) := by
        simp [maxByCountStep]
      rw [hstep]
      exact ih (fun q hq => h1 q (List.mem_cons_of_mem p hq))
        (fun q hq => h2 q (List.mem_cons_of_mem p hq))
    · have hlt : p.2 < cm := h1 p (List.mem_cons_self p l) hp
      have hstep : maxByCountStep (some (m, cm)) p = some (m, cm) := by
        simp only [maxByCountStep]
        rw [if_neg (not_le.mpr hlt)]
      rw [List.foldl_cons, hstep]
      exact ih (fun q hq => h1 q (List.mem_cons_of_mem p hq))
        (fun q hq => h2 q (List.mem_cons_of_mem p hq))

theorem foldl_maxByCountStep_reach {T : Type} (m : T) (cm : Nat) :
    ∀ (l : List (T × Nat)) (acc : Option (T × Nat)),
      (m, cm) ∈ l →
      (∀ p ∈ l, p.1 ≠ m → p.2 < cm) → (∀ p ∈ l, p.1 = m → p = (m, cm)) →
      (acc = none ∨ ∃ q, acc = some q ∧ q.2 < cm) →
      l.foldl maxByCountStep acc = some (m, cm) := by
  intro l
  induction l with
  | nil =>
    intro acc hmem
    exact absurd hmem (List.not_mem_nil _)
  | cons p l ih =>
    intro acc hmem h1 h2 hacc
    by_cases hp : p = (m, cm)
    · subst hp
      have hstep : maxByCountStep acc (m, cm) = some (m, cm) := by
        rcases hacc with h | ⟨q, hq, hlt⟩
        · rw [h]; rfl
        · rw [hq]
          simp only [maxByCountStep]
          rw [if_pos (le_of_lt hlt)]
      rw [List.foldl_cons, hstep]
      exact foldl_maxByCountStep_keep m cm l
        (fun q hq => h1 q (List.mem_cons_of_mem _ hq))
        (fun q hq => h2 q (List.mem_cons_of_mem _ hq))
    · have hpm : p.1 ≠ m := fun hc => hp (h2 p (List.mem_cons_self p l) hc)
      have hlt : p.2 < cm := h1 p (List.mem_cons_self p l) hpm
      have hmem' : (m, cm) ∈ l := by
        rcases List.mem_cons.mp hmem with h | h
        · exact absurd h.symm hp
        · exact h
      have hacc' : maxByCountStep acc p = none ∨
          ∃ q, maxByCountStep acc p = some q ∧ q.2 < cm := by
        rcases hacc with h | ⟨q, hq, hqlt⟩
        · right
          exact ⟨p, by rw [h]; rfl, hlt⟩
        · rw [hq]
          simp only [maxByCountStep]
          by_cases hc : q.2 ≤ p.2
          · right
            exact ⟨p, by rw [if_pos hc], hlt⟩
          · right
            exact ⟨q, by rw [if_neg hc], hqlt⟩
      rw [List.foldl_cons]
      exact ih (maxByCountStep acc p) hmem'
        (fun q hq => h1 q (List.mem_cons_of_mem _ hq))
        (fun q hq => h2 q (List.mem_cons_of_mem _ hq)) hacc'

/-- When one value's count strictly dominates, `max_by_key` returns it
regardless of the map's iteration order. -/
theorem maxByCount_of_unique {T : Type} [DecidableEq T] (responses order : List T)
    (ho : IsIterOrder responses order) (m : T) (hm : m ∈ responses.dedup)
    (hmax : ∀ v ∈ responses.dedup, v ≠ m → responses.count v < responses.count m) :
    maxByCountLast (order.map (fun v => (v, responses.count v))) =
      some (m, responses.count m) := by
  unfold maxByCountLast
  apply foldl_maxByCountStep_reach
  · exact List.mem_map.mpr ⟨m, (List.Perm.mem_iff ho).mpr hm, rfl⟩
  · intro p hp hne
    obtain ⟨v, hv, rfl⟩ := List.mem_map.mp hp
    exact hmax v ((List.Perm.mem_iff ho).mp hv) hne
  · intro p hp heq
    obtain ⟨v, hv, rfl⟩ := List.mem_map.mp hp
    simp only at heq
    rw [heq]
  · exact Or.inl rfl

/-- C5 counterexample input: two values tied at the maximal count. -/
def tieResponses : List Nat := [1, 1, 2, 2]

/-- C5/C6 example engine: threshold 2 of 4 sources. -/
def tieEngine : ConsensusEngine := ⟨2, 4⟩

/-- C5: the claim is false on the code. `find_consensus` builds a `HashMap`
(randomly seeded iteration order) and `max_by_key` keeps the LAST maximal
element in iteration order, so on the tied input `[1, 1, 2, 2]` the two valid
iteration orders `[1, 2]` and `[2, 1]` give different outcomes, and the order
`[1, 2]` makes it return `2`, not the first-seen value `1`. -/
theorem claim_C5_counterexample :
    IsIterOrder tieResponses [1, 2] ∧ IsIterOrder tieResponses [2, 1] ∧
    findConsensus tieEngine tieResponses [1, 2] = Except.ok 2 ∧
    findConsensus tieEngine tieResponses [2, 1] = Except.ok 1 ∧
    findConsensus tieEngine tieResponses [1, 2] ≠
      findConsensus tieEngine tieResponses [2, 1] := by
  refine ⟨?_, ?_, ?_, ?_, ?_⟩ <;> decide

/-- C5 (amended): `find_consensus` is a function of the response list
together with the hash-map iteration order; among max-count ties it returns
the value appearing last in that arbitrary order, so tie outcomes may differ
between runs. When a single value uniquely attains the maximal occurrence
count, the outcome is the same for every iteration order. -/
theorem claim_C5_amended (e : ConsensusEngine) (responses o1 o2 : List Nat)
    (h1 : IsIterOrder responses o1) (h2 : IsIterOrder responses o2)
    (huniq : UniqueMaxResponse responses) :
    findConsensus e responses o1 = findConsensus e responses o2 := by
  obtain ⟨m, hm, hmax⟩ := huniq
  have e1 := maxByCount_of_unique responses o1 h1 m hm hmax
  have e2 := maxByCount_of_unique responses o2 h2 m hm hmax
  simp only [findConsensus, e1, e2]

/-- C5 input with a unique maximal count. -/
def uniqueResponses : List Nat := [5, 5, 7]

/-- Witness for C5 (amended) at a concrete input. -/
theorem claim_C5_witness :
    findConsensus tieEngine uniqueResponses [5, 7] =
      findConsensus tieEngine uniqueResponses [7, 5] :=
  claim_C5_amended tieEngine uniqueResponses [5, 7] [7, 5]
    (by decide) (by decide) (by decide)

/-- C6: for every response list and every hash-map iteration order,
`find_consensus` never returns a value whose occurrence count is below the
threshold; when no response value reaches the threshold (in particular when
the list is shorter than the threshold) it fails with `ConsensusFailure`; and
`has_minimum_responses` fails exactly when the response count is below the
threshold. -/
theorem claim_C6_consensus_threshold :
    (∀ (e : ConsensusEngine) (responses order : List Nat) (v : Nat),
        IsIterOrder responses order →
        findConsensus e responses order = Except.ok v →
        e.threshold ≤ responses.count v) ∧
    (∀ (e : ConsensusEngine) (responses order : List Nat),
        IsIterOrder responses order →
        (∀ v ∈ responses, responses.count v < e.threshold) →
        isConsensusFailure (findConsensus e responses order) = true) ∧
    (∀ (e : ConsensusEngine) (responses : List Nat),
        hasMinimumResponses e responses =
            Except.error (StauroXError.consensus_failure responses.length e.threshold) ↔
          responses.length < e.threshold) := by
  refine ⟨?_, ?_, ?_⟩
  · intro e responses order v _ h
    unfold findConsensus at h
    cases hmin : hasMinimumResponses e responses with
    | error err =>
      simp only [hmin] at h
      exact Except.noConfusion h
    | ok u =>
      simp only [hmin] at h
      cases hmax : maxByCountLast (order.map (fun v => (v, responses.count v))) with
      | none =>
        simp only [hmax] at h
        exact Except.noConfusion h
      | some p =>
        obtain ⟨w, c⟩ := p
        simp only [hmax] at h
        by_cases hc : c < e.threshold
        · simp only [if_pos hc] at h
          exact Except.noConfusion h
        · simp only [if_neg hc, Except.ok.injEq] at h
          obtain ⟨u', hu', hequ⟩ := List.mem_map.mp (maxByCountLast_mem _ _ hmax)
          have h1 : u' = w := congrArg Prod.fst hequ
          have h2 : responses.count u' = c := congrArg Prod.snd hequ
          have hcv : responses.count v = c := by
            rw [← h, ← h1, h2]
          omega
  · intro e responses order ho hall
    by_cases hlen : responses.length < e.threshold
    · have hmin : hasMinimumResponses e responses =
          Except.error (StauroXError.consensus_failure responses.length e.threshold) := by
        unfold hasMinimumResponses
        rw [if_pos hlen]
      simp only [findConsensus, hmin]
      rfl
    · have hmin : hasMinimumResponses e responses = Except.ok () := by
        unfold hasMinimumResponses
        rw [if_neg hlen]
      simp only [findConsensus, hmin]
      cases hmax : maxByCountLast (order.map (fun v => (v, responses.count v))) with
      | none =>
        rfl
      | some p =>
        obtain ⟨w, c⟩ := p
        obtain ⟨u', hu', hequ⟩ := List.mem_map.mp (maxByCountLast_mem _ _ hmax)
        have h1 : u' = w := congrArg Prod.fst hequ
        have h2 : responses.count u' = c := congrArg Prod.snd hequ
        have hc : c < e.threshold := by
          have hw : w ∈ responses := by
            rw [← h1]
            exact List.mem_dedup.mp ((List.Perm.mem_iff ho).mp hu')
          rw [← h2, h1]
          exact hall w hw
        simp only [if_pos hc]
        rfl
  · intro e responses
    unfold hasMinimumResponses
    split_ifs with h <;> simp [h]

/-- Witness for C6 at concrete inputs. -/
theorem claim_C6_witness :
    (2 : Nat) ≤ ([1, 1, 2] : List Nat).count 1 ∧
    isConsensusFailure (findConsensus ⟨3, 4⟩ ([1, 2] : List Nat) [1, 2]) = true ∧
    (hasMinimumResponses ⟨3, 4⟩ ([1, 2] : List Nat) =
        Except.error (StauroXError.consensus_failure 2 3) ↔ 2 < 3) := by
  refine ⟨?_, ?_, ?_⟩
  · exact claim_C6_consensus_threshold.1 ⟨2, 4⟩ [1, 1, 2] [1, 2] 1 (by decide) (by decide)
  · exact claim_C6_consensus_threshold.2.1 ⟨3, 4⟩ [1, 2] [1, 2] (by decide) (by decide)
  · exact claim_C6_consensus_threshold.2.2 ⟨3, 4⟩ [1, 2]

/-! ## NetworkDetector (`src/monitor/detector.rs`, `src/types/network.rs`)

`detect_health` consumes the values of the observation map; every step of the
algorithm (the all-stale test, the per-slot grouping, min/max of the group
keys, the support-percentage filter) is invariant under the map's iteration
order, so the observations are modelled as the list of the map's values.
Wall-clock time (`Utc::now()`) is passed in explicitly as `now` in seconds. -/

/-- `SlotObservation` from `src/types/network.rs` (timestamp in seconds). -/
structure SlotObservation where
  slot : Nat
  source : String
  timestamp : Int
  stake_percent : Option ℚ
deriving DecidableEq, Repr

/-- `SlotObservation::age_seconds`, with `Utc::now()` passed as `now`. -/
def SlotObservation.age_seconds (obs : SlotObservation) (now : Int) : Int :=
  now - obs.timestamp

/-- `SlotObservation::is_stale`: age strictly greater than the threshold. -/
def SlotObservation.is_stale (obs : SlotObservation) (now threshold_secs : Int) : Bool :=
  decide (threshold_secs < obs.age_seconds now)

/-- `FORK_SUPPORT_THRESHOLD` from `src/monitor/detector.rs`. -/
def FORK_SUPPORT_THRESHOLD : ℚ := 30.0

/-- `HEALTHY_LAG_TOLERANCE` from `src/monitor/detector.rs`. -/
def HEALTHY_LAG_TOLERANCE : Nat := 2

/-- `NetworkDetector` struct fields. -/
structure NetworkDetector where
  stale_threshold_secs : Int
deriving DecidableEq, Repr

/-- `NetworkDetector::all_observations_stale`. -/
def all_observations_stale (d : NetworkDetector) (now : Int)
    (observations : List SlotObservation) : Bool :=
  observations.all (fun obs => obs.is_stale now d.stale_threshold_secs)

/-- `NetworkDetector::group_by_slot`: the per-slot source counts, one entry
per distinct slot value. -/
def group_by_slot (observations : List SlotObservation) : List (Nat × Nat) :=
  (observations.map (fun o => o.slot)).dedup.map
    (fun s => (s, (observations.map (fun o => o.slot)).count s))

/-- Max minus min of a nonempty list of slots (`0` for the empty list, which
`within_healthy_tolerance` never reaches with its `unwrap`s). -/
def slotSpread : List Nat → Nat
  | [] => 0
  | s :: rest => rest.foldl Nat.max s - rest.foldl Nat.min s

/-- `NetworkDetector::within_healthy_tolerance`. -/
def within_healthy_tolerance (slot_groups : List (Nat × Nat)) : Bool :=
  if slot_groups.length ≤ 1 then true
  else decide (slotSpread (slot_groups.map Prod.fst) ≤ HEALTHY_LAG_TOLERANCE)

/-- Number of slot groups whose support percentage strictly exceeds
`FORK_SUPPORT_THRESHOLD` (the `filter(...).count()` in
`has_significant_fork`), computed exactly over `ℚ`. -/
def significant_forks (observations : List SlotObservation) : Nat :=
  ((group_by_slot observations).filter
    (fun sources =>
      decide (((sources.2 : ℚ) / (observations.length : ℚ)) * 100 >
        FORK_SUPPORT_THRESHOLD))).length

/-- `NetworkDetector::has_significant_fork`. -/
def has_significant_fork (observations : List SlotObservation) : Bool :=
  if within_healthy_tolerance (group_by_slot observations) then false
  else decide (1 < significant_forks observations)

/-- `NetworkDetector::detect_health`. -/
def detect_health (d : NetworkDetector) (now : Int)
    (observations : List SlotObservation) : NetworkHealth :=
  if observations.isEmpty then NetworkHealth.Halted
  else if all_observations_stale d now observations then NetworkHealth.Halted
  else if has_significant_fork observations then NetworkHealth.Forked
  else NetworkHealth.Healthy

/-- The spread of the distinct observed slot values. -/
def observed_slot_spread (observations : List SlotObservation) : Nat :=
  slotSpread (observations.map (fun o => o.slot)).dedup

theorem map_fst_pairing (f : Nat → Nat) (l : List Nat) :
    (l.map (fun s => (s, f s))).map Prod.fst = l := by
  induction l with
  | nil => rfl
  | cons a t ih => simp [ih]

theorem group_by_slot_keys (observations : List SlotObservation) :
    (group_by_slot observations).map Prod.fst =
      (observations.map (fun o => o.slot)).dedup := by
  unfold group_by_slot
  exact map_fst_pairing _ _

theorem slotSpread_short (l : List Nat) (h : l.length ≤ 1) : slotSpread l = 0 := by
  match l with
  | [] => rfl
  | [s] => simp [slotSpread]
  | s :: t :: r => simp at h

/-- C7: `detect_health` returns `Halted` on an empty observation set and
whenever every observation is stale; returns `Healthy` whenever the distinct
observed slot values span at most `HEALTHY_LAG_TOLERANCE = 2` (absolute slot
values irrelevant); and returns `Forked` when the spread exceeds 2 and more
than one slot group has support strictly above 30% of sources. -/
theorem claim_C7_detect_health :
    (∀ (d : NetworkDetector) (now : Int),
        detect_health d now [] = NetworkHealth.Halted) ∧
    (∀ (d : NetworkDetector) (now : Int) (obs : List SlotObservation),
        all_observations_stale d now obs = true →
        detect_health d now obs = NetworkHealth.Halted) ∧
    (∀ (d : NetworkDetector) (now : Int) (obs : List SlotObservation),
        obs ≠ [] →
        all_observations_stale d now obs = false →
        observed_slot_spread obs ≤ HEALTHY_LAG_TOLERANCE →
        detect_health d now obs = NetworkHealth.Healthy) ∧
    (∀ (d : NetworkDetector) (now : Int) (obs : List SlotObservation),
        obs ≠ [] →
        all_observations_stale d now obs = false →
        HEALTHY_LAG_TOLERANCE < observed_slot_spread obs →
        1 < significant_forks obs →
        detect_health d now obs = NetworkHealth.Forked) := by
  refine ⟨?_, ?_, ?_, ?_⟩
  · intro d now
    rfl
  · intro d now obs h
    cases obs with
    | nil => rfl
    | cons a t => simp [detect_health, h]
  · intro d now obs hne hstale hspread
    have hwithin : within_healthy_tolerance (group_by_slot obs) = true := by
      unfold within_healthy_tolerance
      by_cases hlen : (group_by_slot obs).length ≤ 1
      · rw [if_pos hlen]
      · rw [if_neg hlen, group_by_slot_keys]
        exact decide_eq_true hspread
    have hfork : has_significant_fork obs = false := by
      unfold has_significant_fork
      rw [if_pos hwithin]
    cases obs with
    | nil => exact absurd rfl hne
    | cons a t => simp [detect_health, hstale, hfork]
  · intro d now obs hne hstale hspread hforks
    have hlen : ¬(group_by_slot obs).length ≤ 1 := by
      intro hle
      have hkeys : ((obs.map (fun o => o.slot)).dedup).length ≤ 1 := by
        calc ((obs.map (fun o => o.slot)).dedup).length
            = ((group_by_slot obs).map Prod.fst).length := by
              rw [group_by_slot_keys]
          _ = (group_by_slot obs).length := List.length_map _ _
          _ ≤ 1 := hle
      have h0 : observed_slot_spread obs = 0 := slotSpread_short _ hkeys
      rw [h0] at hspread
      exact absurd hspread (by decide)
    have hwithin : within_healthy_tolerance (group_by_slot obs) = false := by
      unfold within_healthy_tolerance
      rw [if_neg hlen, group_by_slot_keys]
      unfold observed_slot_spread at hspread
      exact decide_eq_false (not_le.mpr hspread)
    have hfork : has_significant_fork obs = true := by
      unfold has_significant_fork
      simp only [hwithin]
      simp only [Bool.false_eq_true, if_false]
      exact decide_eq_true hforks
    cases obs with
    | nil => exact absurd rfl hne
    | cons a t => simp [detect_health, hstale, hfork]

/-- A fresh observation (timestamp `1000`, checked at `now = 1000`). -/
def freshObs (slot : Nat) (src : String) : SlotObservation :=
  ⟨slot, src, 1000, some 25⟩

/-- A stale observation (timestamp `0`, checked at `now = 1000`). -/
def staleObs (slot : Nat) (src : String) : SlotObservation :=
  ⟨slot, src, 0, some 25⟩

/-- Four stale observations at one slot. -/
def obsStale : List SlotObservation :=
  [staleObs 12345 "rpc0", staleObs 12345 "rpc1", staleObs 12345 "rpc2", staleObs 12345 "rpc3"]

/-- Four fresh observations at one slot. -/
def obsHealthy : List SlotObservation :=
  [freshObs 12345 "rpc0", freshObs 12345 "rpc1", freshObs 12345 "rpc2", freshObs 12345 "rpc3"]

/-- Two fresh observations at slot 100 and two at slot 105. -/
def obsForked : List SlotObservation :=
  [freshObs 100 "rpc0", freshObs 100 "rpc1", freshObs 105 "rpc2", freshObs 105 "rpc3"]

theorem significant_forks_obsForked : 1 < significant_forks obsForked := by
  have hg : group_by_slot obsForked = [(100, 2), (105, 2)] := by decide
  have hlen : obsForked.length = 4 := by decide
  unfold significant_forks
  rw [hg, hlen]
  norm_num [List.filter, FORK_SUPPORT_THRESHOLD]

/-- Witness for C7 at the concrete inputs named by the spec. -/
theorem claim_C7_witness :
    detect_health ⟨5⟩ 1000 [] = NetworkHealth.Halted ∧
    detect_health ⟨5⟩ 1000 obsStale = NetworkHealth.Halted ∧
    detect_health ⟨5⟩ 1000 obsHealthy = NetworkHealth.Healthy ∧
    detect_health ⟨5⟩ 1000 obsForked = NetworkHealth.Forked := by
  refine ⟨claim_C7_detect_health.1 ⟨5⟩ 1000, ?_, ?_, ?_⟩
  · exact claim_C7_detect_health.2.1 ⟨5⟩ 1000 obsStale (by decide)
  · exact claim_C7_detect_health.2.2.1 ⟨5⟩ 1000 obsHealthy (by decide) (by decide)
      (by decide)
  · exact claim_C7_detect_health.2.2.2 ⟨5⟩ 1000 obsForked (by decide) (by decide)
      (by decide) significant_forks_obsForked

/-! ## RiskScorer (`src/verification/risk.rs`)

The `f64` computation (three additions, one multiplication, a clamp over the
small decimal constants) is modelled exactly over `ℚ`. -/

/-- Rust `f64::clamp(lo, hi)` = `self.max(lo).min(hi)`, on rationals. -/
def fclamp (x lo hi : ℚ) : ℚ := min (max x lo) hi

/-- `RiskScorer::calculate_risk`: start from `0.0`, add the finality weight,
add the network-health weight, add `(1 - consensus_ratio) * 0.2`, clamp. -/
def calculate_risk (finality : FinalityLevel) (network_health : NetworkHealth)
    (consensus_ratio : ℚ) : ℚ :=
  let risk1 : ℚ := 0 +
    (match finality with
     | FinalityLevel.UltraSafe => 0.01
     | FinalityLevel.Safe => 0.05
     | FinalityLevel.Fast => 0.15)
  let risk2 : ℚ := risk1 +
    (match network_health with
     | NetworkHealth.Healthy => 0.0
     | NetworkHealth.Forked => 0.3
     | NetworkHealth.Halted => 0.5)
  let risk3 : ℚ := risk2 + (1 - consensus_ratio) * 0.2
  fclamp risk3 0 1

/-- `RiskScorer::is_acceptable_risk`. -/
def is_acceptable_risk (risk_score threshold : ℚ) : Bool :=
  decide (risk_score ≤ threshold)

theorem calculate_risk_nonneg (finality : FinalityLevel) (network_health : NetworkHealth)
    (consensus_ratio : ℚ) : 0 ≤ calculate_risk finality network_health consensus_ratio := by
  simp only [calculate_risk, fclamp]
  exact le_min (le_max_right _ _) (by norm_num)

theorem calculate_risk_le_one (finality : FinalityLevel) (network_health : NetworkHealth)
    (consensus_ratio : ℚ) : calculate_risk finality network_health consensus_ratio ≤ 1 := by
  simp only [calculate_risk, fclamp]
  exact min_le_right _ _

/-- Re-clamping a risk score to `[0, 1]` (as `with_risk_score` does) is a
no-op on `calculate_risk` output. -/
theorem fclamp_calculate_risk (finality : FinalityLevel) (network_health : NetworkHealth)
    (consensus_ratio : ℚ) :
    fclamp (calculate_risk finality network_health consensus_ratio) 0 1 =
      calculate_risk finality network_health consensus_ratio := by
  unfold fclamp
  rw [max_eq_left (calculate_risk_nonneg finality network_health consensus_ratio),
    min_eq_left (calculate_risk_le_one finality network_health consensus_ratio)]

/-- C9: for every finality level, network health and consensus ratio
(including ratios outside `[0, 1]`), `calculate_risk` equals
`finality_weight + health_weight + (1 - ratio) * 0.2` clamped to `[0, 1]`,
with weights `UltraSafe=0.01, Safe=0.05, Fast=0.15` and
`Healthy=0.0, Forked=0.3, Halted=0.5`; the result always lies in `[0, 1]`;
and `is_acceptable_risk risk threshold` holds exactly when
`risk ≤ threshold`. -/
theorem claim_C9_risk_scorer :
    (∀ (finality : FinalityLevel) (health : NetworkHealth) (ratio : ℚ),
        calculate_risk finality health ratio =
          fclamp
            ((match finality with
              | FinalityLevel.UltraSafe => (0.01 : ℚ)
              | FinalityLevel.Safe => 0.05
              | FinalityLevel.Fast => 0.15) +
              (match health with
              | NetworkHealth.Healthy => (0.0 : ℚ)
              | NetworkHealth.Forked => 0.3
              | NetworkHealth.Halted => 0.5) +
              (1 - ratio) * 0.2) 0 1 ∧
        0 ≤ calculate_risk finality health ratio ∧
        calculate_risk finality health ratio ≤ 1) ∧
    (∀ risk_score threshold : ℚ,
        is_acceptable_risk risk_score threshold = true ↔ risk_score ≤ threshold) := by
  constructor
  · intro finality health ratio
    refine ⟨?_, calculate_risk_nonneg finality health ratio,
      calculate_risk_le_one finality health ratio⟩
    cases finality <;> cases health <;> simp only [calculate_risk, zero_add]
  · intro risk_score threshold
    simp [is_acceptable_risk]

/-! ## Base-58 decoding (the `bs58` crate's `decode(..).into_vec()`) -/

/-- The Bitcoin base-58 alphabet used by the `bs58` crate. -/
def base58Alphabet : List Char :=
  "123456789ABCDEFGHJKLMNPQRSTUVWXYZabcdefghijkmnopqrstuvwxyz".toList

/-- Digit value of one character; `none` for a character outside the
alphabet (the crate's decode error). -/
def b58Value (c : Char) : Option Nat :=
  base58Alphabet.indexOf? c

/-- Big-endian byte expansion of a natural number (empty for `0`). The first
argument is recursion fuel: the value shrinks by a factor of 256 each step,
so any fuel at least the value suffices. -/
def natToBytesBE : Nat → Nat → List Nat
  | 0, _ => []
  | fuel + 1, n => if n = 0 then [] else natToBytesBE fuel (n / 256) ++ [n % 256]

/-- `bs58::decode(s).into_vec()`: fail on any character outside the alphabet,
read the digit string as a base-58 number, and emit one leading `0x00` byte
per leading `1` character followed by the big-endian bytes of the number. -/
def bs58Decode (s : String) : Option (List Nat) :=
  match s.toList.mapM b58Value with
  | none => none
  | some vals =>
    let n := vals.foldl (fun acc v => acc * 58 + v) 0
    let zeros := (s.toList.takeWhile (fun c => c == '1')).length
    some (List.replicate zeros 0 ++ natToBytesBE n n)

/-! ## Bridge data model (`src/parsers/bridge_types.rs`) -/

/-- `BridgeInstruction` from `src/parsers/bridge_types.rs`. -/
inductive BridgeInstruction
  | TransferWrapped (amount : Nat) (target_chain : Nat) (recipient : List Nat)
  | TransferNative (amount : Nat) (target_chain : Nat) (recipient : List Nat)
  | TransferWithPayload (amount : Nat) (target_chain : Nat)
  | AttestToken
  | CompleteTransfer (vaa_hash : List Nat) (is_native : Bool)
  | CompleteTransferWithPayload
  | WrappedTokenOperation (operation_type : String)
  | Unknown
deriving DecidableEq, Repr

/-- `BridgeType` from `src/parsers/bridge_types.rs`. -/
inductive BridgeType
  | Wormhole
  | Across
  | DeBridge
deriving DecidableEq, Repr

/-- `ParsedTransaction` from `src/parsers/bridge_types.rs`. -/
structure ParsedTransaction where
  bridge_type : BridgeType
  instruction : BridgeInstruction
deriving DecidableEq, Repr

/-! ## Transaction shape (the `solana-transaction-status` types the parser
and engine consume, restricted to the fields the code reads) -/

/-- A compiled instruction of a JSON-encoded raw message: index of the
invoking program in the account-key list (a `u8`), and the base-58 data
blob. -/
structure UiCompiledInstruction where
  program_id_index : Nat
  data : String
deriving DecidableEq, Repr

/-- `UiMessage`: the parser handles only the `Raw` shape. -/
inductive UiMessage
  | raw (account_keys : List String) (instructions : List UiCompiledInstruction)
  | parsed
deriving DecidableEq, Repr

/-- `EncodedTransaction`: `Json` or any other encoding. -/
inductive EncodedTransaction
  | json (message : UiMessage)
  | other
deriving DecidableEq, Repr

/-- Transaction status metadata: the on-chain error field (`None` = the
transaction succeeded on-chain). -/
structure UiTransactionStatusMeta where
  err : Option String
deriving DecidableEq, Repr

/-- `EncodedTransactionWithStatusMeta`. -/
structure EncodedTransactionWithStatusMeta where
  transaction : EncodedTransaction
  meta : Option UiTransactionStatusMeta
deriving DecidableEq, Repr

/-- `EncodedConfirmedTransactionWithStatusMeta`. -/
structure EncodedConfirmedTransactionWithStatusMeta where
  slot : Nat
  transaction : EncodedTransactionWithStatusMeta
deriving DecidableEq, Repr

/-- Outcome of running a piece of Rust code that may hit a runtime panic
(out-of-bounds slice indexing). -/
inductive RunResult (α : Type)
  | panicked
  | ok (val : α)
deriving DecidableEq, Repr

/-! ## Wormhole instruction decoder (`src/parsers/wormhole.rs`) -/

def WORMHOLE_TOKEN_BRIDGE : String := "wormDTUJ6AWPNvk59vGQbDvGJmqbDTdgWgAqcLBCgUb"

def WORMHOLE_CORE : String := "worm2ZoG2kUd4vFXhvjh93UUH596ayRfgQ2MgjNMTth"

def TRANSFER_NATIVE : Nat := 0x01

def ATTEST_TOKEN : Nat := 0x02

def COMPLETE_TRANSFER : Nat := 0x03

def TRANSFER_WRAPPED : Nat := 0x04

def TRANSFER_TOKENS_WITH_PAYLOAD : Nat := 0x05

def COMPLETE_TRANSFER_NATIVE : Nat := 0x07

def CREATE_WRAPPED : Nat := 0x09

def COMPLETE_WRAPPED : Nat := 0x0a

def COMPLETE_TRANSFER_WITH_PAYLOAD : Nat := 0x0d

/-- Little-endian value of a byte list (`uN::from_le_bytes`). -/
def leNat (bytes : List Nat) : Nat :=
  bytes.foldr (fun b acc => b + 256 * acc) 0

/-- `parse_transfer_instruction`: length-check then fixed-offset reads.
Byte reads `data[i]` occur only under the `data.len() >= 55` guard, so the
`getD` defaults are never taken. -/
def parse_transfer_instruction (discriminator : Nat) (data : List Nat) :
    Except StauroXError BridgeInstruction :=
  if data.length < 55 then Except.ok BridgeInstruction.Unknown
  else
    let amount := leNat [data.getD 5 0, data.getD 6 0, data.getD 7 0, data.getD 8 0,
      data.getD 9 0, data.getD 10 0, data.getD 11 0, data.getD 12 0]
    let recipient := (data.drop 21).take 32
    let target_chain := leNat [data.getD 53 0, data.getD 54 0]
    if discriminator = TRANSFER_WRAPPED then
      Except.ok (BridgeInstruction.TransferWrapped amount target_chain recipient)
    else if discriminator = TRANSFER_NATIVE then
      Except.ok (BridgeInstruction.TransferNative amount target_chain recipient)
    else if discriminator = TRANSFER_TOKENS_WITH_PAYLOAD then
      Except.ok (BridgeInstruction.TransferWithPayload amount target_chain)
    else Except.ok BridgeInstruction.Unknown

/-- `parse_attest_token`. -/
def parse_attest_token : Except StauroXError BridgeInstruction :=
  Except.ok BridgeInstruction.AttestToken

/-- `parse_complete_transfer`: empty `vaa_hash`, `is_native` iff the
discriminator is `0x07`. -/
def parse_complete_transfer (discriminator : Nat) : Except StauroXError BridgeInstruction :=
  Except.ok (BridgeInstruction.CompleteTransfer [] (discriminator == COMPLETE_TRANSFER_NATIVE))

/-- `parse_wrapped_token_instruction`. -/
def parse_wrapped_token_instruction (discriminator : Nat) :
    Except StauroXError BridgeInstruction :=
  Except.ok (BridgeInstruction.WrappedTokenOperation
    (if discriminator == CREATE_WRAPPED then "CreateWrapped" else "CompleteWrapped"))

/-- `parse_complete_transfer_with_payload` (`data` is only logged). -/
def parse_complete_transfer_with_payload (_data : List Nat) :
    Except StauroXError BridgeInstruction :=
  Except.ok BridgeInstruction.CompleteTransferWithPayload

/-- The `match discriminator` dispatch of `parse_wormhole_instruction`,
applied to decoded non-empty instruction data (`data[0]` is the
discriminator). -/
def dispatchWormholeData (data : List Nat) : Except StauroXError BridgeInstruction :=
  let discriminator := data.getD 0 0
  if discriminator = TRANSFER_NATIVE ∨ discriminator = TRANSFER_WRAPPED ∨
      discriminator = TRANSFER_TOKENS_WITH_PAYLOAD then
    parse_transfer_instruction discriminator data
  else if discriminator = ATTEST_TOKEN then
    parse_attest_token
  else if discriminator = COMPLETE_TRANSFER ∨ discriminator = COMPLETE_TRANSFER_NATIVE then
    parse_complete_transfer discriminator
  else if discriminator = CREATE_WRAPPED ∨ discriminator = COMPLETE_WRAPPED then
    parse_wrapped_token_instruction discriminator
  else if discriminator = COMPLETE_TRANSFER_WITH_PAYLOAD then
    parse_complete_transfer_with_payload data
  else Except.ok BridgeInstruction.Unknown

/-- The `for ix in instructions` loop of `parse_wormhole_instruction`.
`account_keys[ix.program_id_index]` is an unchecked slice index, so an
out-of-range index is a Rust panic (`RunResult.panicked`); a base-58 decode
failure or empty decoded data hits `continue`. -/
def scanInstructions (account_keys : List String) :
    List UiCompiledInstruction → RunResult (Except StauroXError BridgeInstruction)
  | [] => RunResult.ok (Except.ok BridgeInstruction.Unknown)
  | ix :: rest =>
    match account_keys[ix.program_id_index]? with
    | none => RunResult.panicked
    | some program_id =>
      if program_id ≠ WORMHOLE_TOKEN_BRIDGE then scanInstructions account_keys rest
      else
        match bs58Decode ix.data with
        | none => scanInstructions account_keys rest
        | some data =>
          if data.isEmpty then scanInstructions account_keys rest
          else RunResult.ok (dispatchWormholeData data)

/-- `parse_wormhole_instruction` from `src/parsers/wormhole.rs`. -/
def parse_wormhole_instruction (tx : EncodedConfirmedTransactionWithStatusMeta) :
    RunResult (Except StauroXError BridgeInstruction) :=
  match tx.transaction.transaction with
  | EncodedTransaction.json (UiMessage.raw account_keys instructions) =>
    scanInstructions account_keys instructions
  | EncodedTransaction.json UiMessage.parsed =>
    RunResult.ok (Except.error (StauroXError.Verification "Parsed message not supported"))
  | EncodedTransaction.other =>
    RunResult.ok (Except.error (StauroXError.Verification "Unsupported transaction encoding"))

/-! ## TransactionParser (`src/parsers/mod.rs`) -/

/-- `Pubkey::from_str(key).is_ok()`: the string must decode as base-58 to
exactly 32 bytes (valid keys round-trip through `to_string`, so program ids
are modelled as their base-58 strings). -/
def pubkeyValid (s : String) : Bool :=
  match bs58Decode s with
  | some bytes => bytes.length == 32
  | none => false

/-- `TransactionParser::extract_program_ids`: keep the account keys that
parse as pubkeys. -/
def extract_program_ids (tx : EncodedConfirmedTransactionWithStatusMeta) :
    Except StauroXError (List String) :=
  match tx.transaction.transaction with
  | EncodedTransaction.json (UiMessage.raw account_keys _) =>
    Except.ok (account_keys.filter pubkeyValid)
  | EncodedTransaction.json UiMessage.parsed =>
    Except.error (StauroXError.Verification "Parsed message format not supported")
  | EncodedTransaction.other =>
    Except.error (StauroXError.Verification "Unsupported transaction encoding - expected JSON")

/-- `TransactionParser::detect_bridge_type`: first id matching a Wormhole
program decides. -/
def detect_bridge_type (program_ids : List String) : Option BridgeType :=
  if program_ids.any (fun id => id == WORMHOLE_TOKEN_BRIDGE || id == WORMHOLE_CORE) then
    some BridgeType.Wormhole
  else none

/-- `TransactionParser::parse_bridge_instruction`. -/
def parse_bridge_instruction (tx : EncodedConfirmedTransactionWithStatusMeta)
    (bridge_type : BridgeType) : RunResult (Except StauroXError BridgeInstruction) :=
  match bridge_type with
  | BridgeType.Wormhole => parse_wormhole_instruction tx
  | BridgeType.Across => RunResult.ok (Except.ok BridgeInstruction.Unknown)
  | BridgeType.DeBridge => RunResult.ok (Except.ok BridgeInstruction.Unknown)

/-- `TransactionParser::parse_transaction`. -/
def parse_transaction (tx : EncodedConfirmedTransactionWithStatusMeta) :
    RunResult (Except StauroXError (Option ParsedTransaction)) :=
  match extract_program_ids tx with
  | Except.error e => RunResult.ok (Except.error e)
  | Except.ok program_ids =>
    match detect_bridge_type program_ids with
    | none => RunResult.ok (Except.ok none)
    | some bt =>
      match parse_bridge_instruction tx bt with
      | RunResult.panicked => RunResult.panicked
      | RunResult.ok (Except.error e) => RunResult.ok (Except.error e)
      | RunResult.ok (Except.ok instr) => RunResult.ok (Except.ok (some ⟨bt, instr⟩))

/-! ## Claims C3, C4 and C8 about the decoder -/

/-- A transaction whose first bridge-owned instruction has data decoding to
empty bytes and whose second bridge-owned instruction is a valid
`AttestToken` (`0x02` encodes to base-58 `"3"`). -/
def txSkipsEmptyData : EncodedConfirmedTransactionWithStatusMeta :=
  ⟨0, ⟨EncodedTransaction.json (UiMessage.raw [WORMHOLE_TOKEN_BRIDGE]
    [⟨0, ""⟩, ⟨0, "3"⟩]), none⟩⟩

/-- C3: the claim is false on the code. On a matching instruction whose data
decodes to empty bytes the loop hits `continue`, so the scan moves on to the
next instruction instead of returning `Unknown`: with an empty-data bridge
instruction followed by a valid `AttestToken` bridge instruction the decoder
returns `AttestToken`, not `Unknown`. -/
theorem claim_C3_counterexample :
    parse_wormhole_instruction txSkipsEmptyData =
      RunResult.ok (Except.ok BridgeInstruction.AttestToken) ∧
    parse_wormhole_instruction txSkipsEmptyData ≠
      RunResult.ok (Except.ok BridgeInstruction.Unknown) := by
  constructor <;> decide

/-- C3 (amended): the first instruction whose program id matches the bridge
program id and whose data blob base-58-decodes to non-empty bytes terminates
the scan (later instructions are never considered); a matching instruction
whose data fails to decode or decodes to empty bytes is skipped and the scan
continues with the remaining instructions. -/
theorem claim_C3_amended :
    (∀ (account_keys : List String) (ix : UiCompiledInstruction)
        (rest : List UiCompiledInstruction) (data : List Nat),
        account_keys[ix.program_id_index]? = some WORMHOLE_TOKEN_BRIDGE →
        bs58Decode ix.data = some data →
        data ≠ [] →
        scanInstructions account_keys (ix :: rest) =
          RunResult.ok (dispatchWormholeData data)) ∧
    (∀ (account_keys : List String) (ix : UiCompiledInstruction)
        (rest : List UiCompiledInstruction),
        account_keys[ix.program_id_index]? = some WORMHOLE_TOKEN_BRIDGE →
        (bs58Decode ix.data = none ∨ bs58Decode ix.data = some []) →
        scanInstructions account_keys (ix :: rest) =
          scanInstructions account_keys rest) := by
  constructor
  · intro account_keys ix rest data hkey hdec hne
    have hempty : data.isEmpty = false := by
      cases data with
      | nil => exact absurd rfl hne
      | cons a t => rfl
    simp only [scanInstructions, hkey, hdec, hempty]
    rw [if_neg (by simp : ¬(WORMHOLE_TOKEN_BRIDGE ≠ WORMHOLE_TOKEN_BRIDGE))]
    simp [hdec, hempty]
  · intro account_keys ix rest hkey hdec
    rcases hdec with hdec | hdec <;>
      simp [scanInstructions, hkey, hdec]

/-- Witness for C3 (amended) at concrete instructions. -/
theorem claim_C3_witness :
    scanInstructions [WORMHOLE_TOKEN_BRIDGE] [⟨0, "3"⟩, ⟨0, "4"⟩] =
      RunResult.ok (dispatchWormholeData [2]) ∧
    scanInstructions [WORMHOLE_TOKEN_BRIDGE] [⟨0, ""⟩, ⟨0, "3"⟩] =
      scanInstructions [WORMHOLE_TOKEN_BRIDGE] [⟨0, "3"⟩] := by
  constructor
  · exact claim_C3_amended.1 [WORMHOLE_TOKEN_BRIDGE] ⟨0, "3"⟩ [⟨0, "4"⟩] [2]
      (by decide) (by decide) (by decide)
  · exact claim_C3_amended.2 [WORMHOLE_TOKEN_BRIDGE] ⟨0, ""⟩ [⟨0, "3"⟩]
      (by decide) (Or.inr (by decide))

/-- A transaction that reaches the Wormhole decoder with an instruction
whose `program_id_index` (5) is out of range for its one-element account-key
list. -/
def txPanicInput : EncodedConfirmedTransactionWithStatusMeta :=
  ⟨0, ⟨EncodedTransaction.json (UiMessage.raw [WORMHOLE_TOKEN_BRIDGE] [⟨5, "3"⟩]), none⟩⟩

set_option maxRecDepth 16384 in
/-- C4: the claim is right and the code is wrong. The loop head
`&account_keys[ix.program_id_index as usize]` indexes the caller-supplied
account-key list without any bounds check, so a transaction whose
instruction carries an out-of-range `program_id_index` panics the decoder
(and `parse_transaction` with it) instead of returning a value. -/
theorem claim_C4_decoder_panics :
    parse_wormhole_instruction txPanicInput = RunResult.panicked ∧
    parse_transaction txPanicInput = RunResult.panicked := by
  constructor <;> decide

/-- The little-endian `u64` read at offset 5 of a transfer blob. -/
def transferAmount (data : List Nat) : Nat :=
  leNat [data.getD 5 0, data.getD 6 0, data.getD 7 0, data.getD 8 0,
    data.getD 9 0, data.getD 10 0, data.getD 11 0, data.getD 12 0]

/-- The little-endian `u16` read at offset 53 of a transfer blob. -/
def transferTargetChain (data : List Nat) : Nat :=
  leNat [data.getD 53 0, data.getD 54 0]

/-- The 32 raw bytes at offset 21 of a transfer blob. -/
def transferRecipient (data : List Nat) : List Nat :=
  (data.drop 21).take 32

/-- C8: for every data blob whose first byte is a transfer opcode
(`0x01`/`0x04`/`0x05`), a blob shorter than 55 bytes decodes to `Unknown`
(no crash), and otherwise the decoder produces
`TransferNative`/`TransferWrapped` (amount, target_chain, recipient) or
`TransferWithPayload` (amount and target_chain only), with amount the
little-endian `u64` at offset 5, target_chain the little-endian `u16` at
offset 53, and recipient the 32 raw bytes at offset 21. -/
theorem claim_C8_transfer_layout :
    ∀ data : List Nat,
      (data.getD 0 0 = TRANSFER_NATIVE ∨ data.getD 0 0 = TRANSFER_WRAPPED ∨
        data.getD 0 0 = TRANSFER_TOKENS_WITH_PAYLOAD) →
      (data.length < 55 → dispatchWormholeData data = Except.ok BridgeInstruction.Unknown) ∧
      (55 ≤ data.length →
        (transferRecipient data).length = 32 ∧
        dispatchWormholeData data =
          Except.ok
            (if data.getD 0 0 = TRANSFER_NATIVE then
              BridgeInstruction.TransferNative (transferAmount data)
                (transferTargetChain data) (transferRecipient data)
            else if data.getD 0 0 = TRANSFER_WRAPPED then
              BridgeInstruction.TransferWrapped (transferAmount data)
                (transferTargetChain data) (transferRecipient data)
            else
              BridgeInstruction.TransferWithPayload (transferAmount data)
                (transferTargetChain data))) := by
  intro data hd
  constructor
  · intro hlen
    simp only [dispatchWormholeData]
    rw [if_pos hd]
    simp only [parse_transfer_instruction]
    rw [if_pos hlen]
  · intro hlen
    refine ⟨?_, ?_⟩
    · unfold transferRecipient
      rw [List.length_take, List.length_drop]
      omega
    · simp only [dispatchWormholeData]
      rw [if_pos hd]
      simp only [parse_transfer_instruction]
      rw [if_neg (not_lt.mpr hlen)]
      rcases hd with h | h | h <;>
        · rw [h]
          norm_num [TRANSFER_NATIVE, TRANSFER_WRAPPED, TRANSFER_TOKENS_WITH_PAYLOAD,
            transferAmount, transferTargetChain, transferRecipient]

/-- A well-formed 55-byte `TransferWrapped` blob: opcode `0x04`, nonce 0,
amount `1_000_000`, fee 0, recipient `0x12 0x34` padded to 32 bytes,
target chain 2 (Ethereum). -/
def transferSample : List Nat :=
  [0x04, 0, 0, 0, 0, 0x40, 0x42, 0x0f, 0, 0, 0, 0, 0, 0, 0, 0, 0, 0, 0, 0, 0] ++
    ([0x12, 0x34] ++ List.replicate 30 0) ++ [2, 0]

/-- Witness for C8 at concrete blobs. -/
theorem claim_C8_witness :
    dispatchWormholeData [4, 0, 0] = Except.ok BridgeInstruction.Unknown ∧
    dispatchWormholeData transferSample =
      Except.ok (BridgeInstruction.TransferWrapped 1000000 2
        ([0x12, 0x34] ++ List.replicate 30 0)) := by
  constructor
  · exact (claim_C8_transfer_layout [4, 0, 0] (Or.inr (Or.inl (by decide)))).1 (by decide)
  · have h := (claim_C8_transfer_layout transferSample
      (Or.inr (Or.inl (by decide)))).2 (by decide)
    rw [h.2]
    decide

/-! ## VerificationResult (`src/types/verification.rs`) -/

/-- `VerificationResult` from `src/types/verification.rs` (`Signature`
modelled as its string form, `timestamp` in seconds). The
`parsed_instruction` field backs `with_parsed_transaction`; see that
method's note. -/
structure VerificationResult where
  signature : String
  slot : Nat
  verified : Bool
  risk_score : ℚ
  finality_level : FinalityLevel
  network_health : NetworkHealth
  consensus_count : Nat
  timestamp : Int
  parsed_instruction : Option ParsedTransaction
deriving DecidableEq, Repr

/-- `VerificationResult::new` (with `Utc::now()` passed as `now`). -/
def VerificationResult.new (signature : String) (slot : Nat) (now : Int) :
    VerificationResult :=
  { signature := signature, slot := slot, verified := false, risk_score := 1.0,
    finality_level := FinalityLevel.Fast, network_health := NetworkHealth.Healthy,
    consensus_count := 0, timestamp := now, parsed_instruction := none }

/-- `VerificationResult::with_verification`. -/
def VerificationResult.with_verification (r : VerificationResult) (verified : Bool) :
    VerificationResult :=
  { r with verified := verified }

/-- `VerificationResult::with_consensus`. -/
def VerificationResult.with_consensus (r : VerificationResult) (count : Nat) :
    VerificationResult :=
  { r with consensus_count := count }

/-- `VerificationResult::with_finality`. -/
def VerificationResult.with_finality (r : VerificationResult) (level : FinalityLevel) :
    VerificationResult :=
  { r with finality_level := level }

/-- `VerificationResult::with_network_health`. -/
def VerificationResult.with_network_health (r : VerificationResult)
    (health : NetworkHealth) : VerificationResult :=
  { r with network_health := health }

/-- `VerificationResult::with_risk_score`: clamps the score to `[0, 1]`. -/
def VerificationResult.with_risk_score (r : VerificationResult) (score : ℚ) :
    VerificationResult :=
  { r with risk_score := fclamp score 0 1 }

/-- Modelled from the spec: `engine.rs` calls
`VerificationResult::with_parsed_transaction`, but that method and its
backing field are absent from the sources under `src/` (only the callers
exist); spec §3 gives `VerificationResult` a
`parsed_instruction: optional BridgeInstruction` holding the decoded bridge
metadata attached to the result, so the method is modelled as setting that
optional field to its argument. -/
def VerificationResult.with_parsed_transaction (r : VerificationResult)
    (parsed : Option ParsedTransaction) : VerificationResult :=
  { r with parsed_instruction := parsed }

/-! ## MultiRpcClient (`src/rpc/client.rs`) -/

/-- `MultiRpcClient`: the configured endpoint count and its
`ConsensusEngine` (built by `new` as `ConsensusEngine::new(threshold,
clients.len())`). -/
structure MultiRpcClient where
  client_count : Nat
  consensus : ConsensusEngine
deriving DecidableEq, Repr

/-- `MultiRpcClient::new` for `n` endpoint urls. -/
def MultiRpcClient.new (n threshold : Nat) : MultiRpcClient :=
  ⟨n, ⟨threshold, n⟩⟩

/-- `MultiRpcClient::fetch_transaction_with_consensus`, applied to the list
of per-source successful responses collected by `fetch_from_all_rpcs`
(failed sources are simply absent): gate on the minimum response count, then
return the first success. -/
def fetch_transaction_with_consensus (c : MultiRpcClient)
    (results : List EncodedConfirmedTransactionWithStatusMeta) :
    Except StauroXError EncodedConfirmedTransactionWithStatusMeta :=
  match hasMinimumResponses c.consensus results with
  | Except.error e => Except.error e
  | Except.ok _ =>
    match results with
    | [] => Except.error (StauroXError.consensus_failure 0 c.consensus.threshold)
    | tx :: _ => Except.ok tx

/-! ## VerificationEngine (`src/verification/engine.rs`) -/

/-- The message of the health-gate error in `check_network_health`. -/
def networkHaltedMessage : String := "Network halted - cannot verify transactions"

/-- `check_transaction_success`: absence of `meta.err` means success;
missing `meta` counts as failure. -/
def check_transaction_success (tx : EncodedConfirmedTransactionWithStatusMeta) : Bool :=
  (tx.transaction.meta.map (fun meta => meta.err.isNone)).getD false

/-- The `match slot_age` classification in `determine_finality_level`
(`slot_age = current_slot.saturating_sub(tx_slot)`). -/
def finality_from_slot_age (slot_age : Nat) : FinalityLevel :=
  if slot_age ≤ 31 then FinalityLevel.Fast
  else if slot_age ≤ 63 then FinalityLevel.Safe
  else FinalityLevel.UltraSafe

/-- `calculate_consensus_ratio`: `consensus_count / client_count` (exact
rational model of the `f64` division). -/
def calculate_consensus_ratio (c : MultiRpcClient) (consensus_count : Nat) : ℚ :=
  (consensus_count : ℚ) / (c.client_count : ℚ)

/-- The network queries `verify_transaction` can issue, in order. -/
inductive RpcQuery
  | fetchTransaction
  | getSlot
deriving DecidableEq, Repr

/-- The effectful environment of one `verify_transaction` call: the cached
health that `health_monitor.get_health()` returns, the per-source successful
responses to the transaction fetch, and the outcome of the slot-consensus
query `get_slot_with_consensus` (itself a `find_consensus` over the
per-source slot responses). -/
structure EngineWorld where
  cached_health : NetworkHealth
  tx_responses : List EncodedConfirmedTransactionWithStatusMeta
  slot_response : Except StauroXError Nat
deriving DecidableEq, Repr

/-- `VerificationEngine` (the parser and scorers are stateless). -/
structure VerificationEngine where
  rpc_client : MultiRpcClient
deriving DecidableEq, Repr

/-- `build_failed_verification_result` (`reason` is only logged). -/
def build_failed_verification_result (signature : String) (slot : Nat)
    (network_health : NetworkHealth) (_reason : String)
    (parsed_tx : Option ParsedTransaction) (now : Int) : VerificationResult :=
  ((((((VerificationResult.new signature slot now).with_verification
    false).with_finality FinalityLevel.Fast).with_network_health
    network_health).with_risk_score 1.0).with_consensus 0).with_parsed_transaction
    parsed_tx

/-- `verify_transaction`: health gate, fetch with consensus, best-effort
bridge decode, on-chain success check, finality, risk, result assembly. The
second component lists the source queries the call performed, in order; a
decoder panic aborts the call (`RunResult.panicked`). At the
failed-on-chain return the call site passes `None` for `parsed_tx`. -/
def verify_transaction (e : VerificationEngine) (w : EngineWorld)
    (signature : String) (now : Int) :
    RunResult (Except StauroXError VerificationResult × List RpcQuery) :=
  if w.cached_health = NetworkHealth.Halted then
    RunResult.ok (Except.error (StauroXError.Verification networkHaltedMessage), [])
  else
    match fetch_transaction_with_consensus e.rpc_client w.tx_responses with
    | Except.error err => RunResult.ok (Except.error err, [RpcQuery.fetchTransaction])
    | Except.ok tx =>
      match parse_transaction tx with
      | RunResult.panicked => RunResult.panicked
      | RunResult.ok parseOutcome =>
        let parsed_tx : Option ParsedTransaction :=
          match parseOutcome with
          | Except.ok p => p
          | Except.error _ => none
        if check_transaction_success tx then
          match w.slot_response with
          | Except.error err =>
            RunResult.ok (Except.error err, [RpcQuery.fetchTransaction, RpcQuery.getSlot])
          | Except.ok current_slot =>
            let finality := finality_from_slot_age (current_slot - tx.slot)
            let risk_score := calculate_risk finality w.cached_health
              (calculate_consensus_ratio e.rpc_client 1)
            RunResult.ok (Except.ok
              (((((((VerificationResult.new signature tx.slot now).with_verification
                true).with_finality finality).with_network_health
                w.cached_health).with_risk_score risk_score).with_consensus
                1).with_parsed_transaction parsed_tx),
              [RpcQuery.fetchTransaction, RpcQuery.getSlot])
        else
          RunResult.ok (Except.ok
            (build_failed_verification_result signature tx.slot w.cached_health
              "Transaction failed on-chain" none now),
            [RpcQuery.fetchTransaction])

/-! ## Claims C1, C2 and C10 about the engine -/

/-- A world whose cached health is `Halted`. -/
def haltedWorld : EngineWorld :=
  ⟨NetworkHealth.Halted, [], Except.error (StauroXError.Verification "unused")⟩

/-- An engine over two sources with consensus threshold 1. -/
def engineTwo : VerificationEngine := ⟨MultiRpcClient.new 2 1⟩

/-- C2: the claim is false as stated. With cached health `Halted` the call
does fail immediately with no source queried, but the error is built by
`StauroXError::verification(..)` — the `Verification` variant, the same kind
as an ordinary verification failure — and `StauroXError` has no
`NetworkHalted` variant at all. -/
theorem claim_C2_counterexample :
    verify_transaction engineTwo haltedWorld "sig" 0 =
      RunResult.ok (Except.error (StauroXError.Verification networkHaltedMessage), []) ∧
    StauroXError.kind (StauroXError.Verification networkHaltedMessage) = "Verification" ∧
    StauroXError.kind (StauroXError.Verification networkHaltedMessage) ≠ "NetworkHalted" ∧
    StauroXError.kind (StauroXError.Verification networkHaltedMessage) =
      StauroXError.kind (StauroXError.Verification "Transaction failed on-chain") := by
  refine ⟨?_, ?_, ?_, ?_⟩ <;> decide

/-- C2 (amended): with cached health `Halted`, `verify_transaction` fails
immediately with a `Verification`-kind error carrying the message
"Network halted - cannot verify transactions" — a kind distinct from
`ConsensusFailure`, though not a dedicated `NetworkHalted` kind — and no
source is queried (the performed-query list is empty). -/
theorem claim_C2_amended (e : VerificationEngine) (w : EngineWorld)
    (signature : String) (now : Int)
    (h : w.cached_health = NetworkHealth.Halted) :
    verify_transaction e w signature now =
      RunResult.ok (Except.error (StauroXError.Verification networkHaltedMessage), []) ∧
    StauroXError.kind (StauroXError.Verification networkHaltedMessage) ≠
      StauroXError.kind (StauroXError.consensus_failure 0 0) := by
  constructor
  · unfold verify_transaction
    rw [if_pos h]
  · decide

/-- Witness for C2 (amended) at a concrete halted world. -/
theorem claim_C2_witness :
    verify_transaction engineTwo haltedWorld "sig" 0 =
      RunResult.ok (Except.error (StauroXError.Verification networkHaltedMessage), []) ∧
    StauroXError.kind (StauroXError.Verification networkHaltedMessage) ≠
      StauroXError.kind (StauroXError.consensus_failure 0 0) :=
  claim_C2_amended engineTwo haltedWorld "sig" 0 rfl

/-- A bridge transaction (valid Wormhole `AttestToken` instruction) whose
on-chain status carries an error, i.e. it failed on-chain. -/
def txFailedBridge : EncodedConfirmedTransactionWithStatusMeta :=
  ⟨7, ⟨EncodedTransaction.json (UiMessage.raw [WORMHOLE_TOKEN_BRIDGE] [⟨0, "3"⟩]),
    some ⟨some "InstructionError"⟩⟩⟩

/-- A healthy world whose only fetch response is `txFailedBridge`. -/
def worldFailedBridge : EngineWorld :=
  ⟨NetworkHealth.Healthy, [txFailedBridge], Except.ok 100⟩

set_option maxRecDepth 16384 in
/-- C1: the claim is false in one respect. On a failed-on-chain bridge
transaction whose metadata decodes successfully, the call site of
`build_failed_verification_result` passes `None` for `parsed_tx`, so the
already-decoded bridge metadata is dropped rather than attached: the
returned result carries `parsed_instruction = none`. -/
theorem claim_C1_counterexample :
    parse_transaction txFailedBridge =
      RunResult.ok (Except.ok (some ⟨BridgeType.Wormhole, BridgeInstruction.AttestToken⟩)) ∧
    check_transaction_success txFailedBridge = false ∧
    verify_transaction engineTwo worldFailedBridge "sig" 0 =
      RunResult.ok (Except.ok (build_failed_verification_result "sig" 7
        NetworkHealth.Healthy "Transaction failed on-chain" none 0),
        [RpcQuery.fetchTransaction]) ∧
    (build_failed_verification_result "sig" 7 NetworkHealth.Healthy
      "Transaction failed on-chain" none 0).parsed_instruction = none ∧
    (build_failed_verification_result "sig" 7 NetworkHealth.Healthy
        "Transaction failed on-chain" none 0).parsed_instruction ≠
      some ⟨BridgeType.Wormhole, BridgeInstruction.AttestToken⟩ := by
  have hparse : parse_transaction txFailedBridge =
      RunResult.ok (Except.ok (some ⟨BridgeType.Wormhole, BridgeInstruction.AttestToken⟩)) := by
    decide
  have hsucc : check_transaction_success txFailedBridge = false := by decide
  have hfetch : fetch_transaction_with_consensus engineTwo.rpc_client
      worldFailedBridge.tx_responses = Except.ok txFailedBridge := by decide
  refine ⟨hparse, hsucc, ?_, rfl, by decide⟩
  unfold verify_transaction
  rw [if_neg (by decide : ¬worldFailedBridge.cached_health = NetworkHealth.Halted)]
  simp only [hfetch, hparse, hsucc, Bool.false_eq_true, if_false]
  rfl

/-- C1 (amended): when the fetched transaction's on-chain success flag is
false (and the bridge decode does not panic), `verify_transaction` returns a
normal (non-error) result with `verified = false`, `risk_score = 1.0`,
`finality_level` the lowest tier (`Fast`), `consensus_count = 0`, the
network health as gated, and NO bridge metadata (`parsed_instruction =
none`, the decoded metadata having been discarded); no slot-consensus query
and no risk computation is performed. -/
theorem claim_C1_amended (e : VerificationEngine) (w : EngineWorld)
    (signature : String) (now : Int)
    (tx : EncodedConfirmedTransactionWithStatusMeta)
    (parseOutcome : Except StauroXError (Option ParsedTransaction))
    (hhealth : ¬w.cached_health = NetworkHealth.Halted)
    (hfetch : fetch_transaction_with_consensus e.rpc_client w.tx_responses = Except.ok tx)
    (hparse : parse_transaction tx = RunResult.ok parseOutcome)
    (hfail : check_transaction_success tx = false) :
    verify_transaction e w signature now =
      RunResult.ok (Except.ok (build_failed_verification_result signature tx.slot
        w.cached_health "Transaction failed on-chain" none now),
        [RpcQuery.fetchTransaction]) ∧
    (build_failed_verification_result signature tx.slot w.cached_health
      "Transaction failed on-chain" none now).verified = false ∧
    (build_failed_verification_result signature tx.slot w.cached_health
      "Transaction failed on-chain" none now).risk_score = 1 ∧
    (build_failed_verification_result signature tx.slot w.cached_health
      "Transaction failed on-chain" none now).finality_level = FinalityLevel.Fast ∧
    isLowestTier FinalityLevel.Fast = true ∧
    (build_failed_verification_result signature tx.slot w.cached_health
      "Transaction failed on-chain" none now).consensus_count = 0 ∧
    (build_failed_verification_result signature tx.slot w.cached_health
      "Transaction failed on-chain" none now).network_health = w.cached_health ∧
    (build_failed_verification_result signature tx.slot w.cached_health
      "Transaction failed on-chain" none now).parsed_instruction = none ∧
    RpcQuery.getSlot ∉ [RpcQuery.fetchTransaction] := by
  refine ⟨?_, rfl, ?_, rfl, by decide, rfl, rfl, rfl, by decide⟩
  · unfold verify_transaction
    rw [if_neg hhealth]
    simp only [hfetch, hparse, hfail, Bool.false_eq_true, if_false]
  · show fclamp 1.0 0 1 = 1
    norm_num [fclamp]

set_option maxRecDepth 16384 in
/-- Witness for C1 (amended) at the concrete failed bridge transaction. -/
theorem claim_C1_witness :
    verify_transaction engineTwo worldFailedBridge "sig" 0 =
      RunResult.ok (Except.ok (build_failed_verification_result "sig" 7
        NetworkHealth.Healthy "Transaction failed on-chain" none 0),
        [RpcQuery.fetchTransaction]) ∧
    (build_failed_verification_result "sig" 7 NetworkHealth.Healthy
      "Transaction failed on-chain" none 0).verified = false ∧
    (build_failed_verification_result "sig" 7 NetworkHealth.Healthy
      "Transaction failed on-chain" none 0).risk_score = 1 := by
  have h := claim_C1_amended engineTwo worldFailedBridge "sig" 0 txFailedBridge
    (Except.ok (some ⟨BridgeType.Wormhole, BridgeInstruction.AttestToken⟩))
    (by decide) (by decide) (by decide) (by decide)
  exact ⟨h.1, h.2.1, h.2.2.1⟩

/-- C10: every successfully verified result carries `consensus_count = 1`
(the engine hardcodes it after the fetch) and a risk score computed at
consensus ratio `1 / client_count`, regardless of how many sources actually
responded; only the minimum-response gate of
`fetch_transaction_with_consensus` uses the real response count. -/
theorem claim_C10_consensus_count :
    (∀ (e : VerificationEngine) (w : EngineWorld) (signature : String) (now : Int)
        (r : VerificationResult) (queries : List RpcQuery),
        verify_transaction e w signature now = RunResult.ok (Except.ok r, queries) →
        r.verified = true →
        r.consensus_count = 1 ∧
        r.risk_score = calculate_risk r.finality_level r.network_health
          (calculate_consensus_ratio e.rpc_client 1) ∧
        calculate_consensus_ratio e.rpc_client 1 = 1 / (e.rpc_client.client_count : ℚ)) ∧
    (∀ (c : MultiRpcClient) (results : List EncodedConfirmedTransactionWithStatusMeta),
        exceptIsOk (fetch_transaction_with_consensus c results) = true ↔
          (c.consensus.threshold ≤ results.length ∧ results ≠ [])) := by
  constructor
  · intro e w signature now r queries hrun hver
    unfold verify_transaction at hrun
    by_cases hH : w.cached_health = NetworkHealth.Halted
    · rw [if_pos hH] at hrun
      injection hrun with hp
      exact Except.noConfusion (congrArg Prod.fst hp)
    · rw [if_neg hH] at hrun
      cases hfetch : fetch_transaction_with_consensus e.rpc_client w.tx_responses with
      | error err =>
        simp only [hfetch] at hrun
        injection hrun with hp
        exact Except.noConfusion (congrArg Prod.fst hp)
      | ok tx =>
        simp only [hfetch] at hrun
        cases hparse : parse_transaction tx with
        | panicked =>
          simp only [hparse] at hrun
          exact RunResult.noConfusion hrun
        | ok parseOutcome =>
          simp only [hparse] at hrun
          cases hsucc : check_transaction_success tx with
          | false =>
            simp only [hsucc, Bool.false_eq_true, if_false] at hrun
            injection hrun with hp
            have hr : build_failed_verification_result signature tx.slot w.cached_health
                "Transaction failed on-chain" none now = r := by
              have := congrArg Prod.fst hp
              injection this
            have hfalse : r.verified = false := by
              rw [← hr]
              rfl
            rw [hver] at hfalse
            exact Bool.noConfusion hfalse
          | true =>
            simp only [hsucc, if_true] at hrun
            cases hslot : w.slot_response with
            | error err =>
              simp only [hslot] at hrun
              injection hrun with hp
              exact Except.noConfusion (congrArg Prod.fst hp)
            | ok current_slot =>
              simp only [hslot] at hrun
              injection hrun with hp
              rw [Prod.mk.injEq] at hp
              obtain ⟨hfst, -⟩ := hp
              rw [Except.ok.injEq] at hfst
              subst hfst
              refine ⟨rfl, ?_, ?_⟩
              · exact fclamp_calculate_risk _ _ _
              · simp [calculate_consensus_ratio]
  · intro c results
    unfold fetch_transaction_with_consensus hasMinimumResponses
    by_cases h : results.length < c.consensus.threshold
    · rw [if_pos h]
      simp only [exceptIsOk]
      constructor
      · intro hfalse
        exact Bool.noConfusion hfalse
      · intro ⟨h1, _⟩
        omega
    · rw [if_neg h]
      cases results with
      | nil =>
        simp [exceptIsOk]
      | cons tx rest =>
        simp only [exceptIsOk]
        constructor
        · intro _
          exact ⟨by omega, by simp⟩
        · intro _
          trivial

/-- A successfully verified bridge transaction and its world. -/
def txOkBridge : EncodedConfirmedTransactionWithStatusMeta :=
  ⟨7, ⟨EncodedTransaction.json (UiMessage.raw [WORMHOLE_TOKEN_BRIDGE] [⟨0, "3"⟩]),
    some ⟨none⟩⟩⟩

/-- World delivering `txOkBridge` and slot consensus 10. -/
def worldOkBridge : EngineWorld :=
  ⟨NetworkHealth.Healthy, [txOkBridge], Except.ok 10⟩

/-- The result `verify_transaction` assembles in `worldOkBridge`. -/
def resultOkBridge : VerificationResult :=
  (((((((VerificationResult.new "sig" 7 0).with_verification true).with_finality
    (finality_from_slot_age (10 - 7))).with_network_health
    NetworkHealth.Healthy).with_risk_score
    (calculate_risk (finality_from_slot_age (10 - 7)) NetworkHealth.Healthy
      (calculate_consensus_ratio (MultiRpcClient.new 2 1) 1))).with_consensus
    1).with_parsed_transaction
    (some ⟨BridgeType.Wormhole, BridgeInstruction.AttestToken⟩))

set_option maxRecDepth 16384 in
/-- Witness for C10 at a concrete verified transaction. -/
theorem claim_C10_witness :
    resultOkBridge.consensus_count = 1 ∧
    resultOkBridge.risk_score = calculate_risk resultOkBridge.finality_level
      resultOkBridge.network_health
      (calculate_consensus_ratio engineTwo.rpc_client 1) ∧
    (exceptIsOk (fetch_transaction_with_consensus (MultiRpcClient.new 2 1) [txOkBridge]) =
        true ↔ ((MultiRpcClient.new 2 1).consensus.threshold ≤ 1 ∧
          ([txOkBridge] : List EncodedConfirmedTransactionWithStatusMeta) ≠ [])) := by
  have h := claim_C10_consensus_count.1 engineTwo worldOkBridge "sig" 0 resultOkBridge
    [RpcQuery.fetchTransaction, RpcQuery.getSlot] rfl rfl
  refine ⟨h.1, h.2.1, ?_⟩
  have h2 := claim_C10_consensus_count.2 (MultiRpcClient.new 2 1) [txOkBridge]
  simpa using h2

end StauroX
